import Mathlib

/-!
Verification of the ascii-art-generator command-line tool
(`src/tools/ascii-art-generator/main.py`).

The program reads `sys.argv[1]`, renders it with
`pyfiglet.figlet_format` (an external collaborator, modelled here as an
opaque function parameter that may fail), wraps the rendered string in a
one-field JSON object and prints `json.dumps` of that object on standard
output.

The embedding models:
* the argument access (`sys.argv[1]`), which raises an IndexError-class
  fault when no argument is present;
* CPython's `json.dumps` serialization of a one-key dictionary whose
  value is a string, with its default options (`ensure_ascii=True`,
  separators `", "` and `": "`): every character outside printable
  ASCII, as well as the quote and backslash, is escaped, non-BMP code
  points as surrogate pairs;
* a JSON reader for documents of the emitted shape (an object with the
  single key `ascii_art` whose value is a JSON string), used to state
  the validity and round-trip properties.
-/

namespace AsciiArt

/-- One nibble rendered as a lowercase hexadecimal digit, exactly as
CPython's json encoder writes the digits of a `\uXXXX` escape. -/
def hexDigit (n : Nat) : Char :=
  if n < 10 then Char.ofNat (48 + n) else Char.ofNat (87 + n)

/-- The letter `u` and four hex digits of a code unit `n < 0x10000`:
the part of a `\uXXXX` escape after the backslash. -/
def uTail (n : Nat) : List Char :=
  'u' :: hexDigit (n / 4096 % 16) :: hexDigit (n / 256 % 16) ::
    hexDigit (n / 16 % 16) :: hexDigit (n % 16) :: []

/-- The six-character escape `\uXXXX` for a code unit `n < 0x10000`. -/
def uEscape (n : Nat) : List Char :=
  '\\' :: uTail n

/-- CPython `json.dumps` escaping of a single character under the
default `ensure_ascii=True`: two-character escapes for the quote, the
backslash and the five named control characters; printable ASCII kept
verbatim; every other BMP code point as `\uXXXX`; characters above the
BMP as a surrogate pair. -/
def escapeChar (c : Char) : List Char :=
  if c = '"' then ['\\', '"']
  else if c = '\\' then ['\\', '\\']
  else if c = '\n' then ['\\', 'n']
  else if c = '\r' then ['\\', 'r']
  else if c = '\t' then ['\\', 't']
  else if c.toNat = 8 then ['\\', 'b']
  else if c.toNat = 12 then ['\\', 'f']
  else if 32 ≤ c.toNat ∧ c.toNat ≤ 126 then [c]
  else if c.toNat < 65536 then uEscape c.toNat
  else uEscape (55296 + (c.toNat - 65536) / 1024) ++
       uEscape (56320 + (c.toNat - 65536) % 1024)

/-- `json.dumps` escaping applied to every character of a string body. -/
def escapeList : List Char → List Char
  | [] => []
  | c :: cs => escapeChar c ++ escapeList cs

/-- The fourteen characters the serializer emits before the value
string's opening quote, plus that quote: `\x7b"ascii_art": "`. -/
def docHead : List Char :=
  ['\x7b', '"', 'a', 's', 'c', 'i', 'i', '_', 'a', 'r', 't', '"', ':', ' ', '"']

/-- `json.dumps` applied to the one-key dictionary built on line 8 of
`main.py`: the literal text `\x7b"ascii_art": "` followed by the escaped
value string, a closing quote and a closing brace. -/
def dumps_ascii_art (art : String) : String :=
  String.mk (docHead ++ (escapeList art.data ++ ['"', '\x7d']))

/-- The two fault classes the spec names for this program: the
IndexError raised by `sys.argv[1]` when no argument was passed, and any
error raised by the external rendering capability. Either one
propagates out of the module body unhandled. -/
inductive Fault where
  | missingArgument : Fault
  | renderingFault : String → Fault

/-- Observable outcome of one process run: the bytes written to
standard output, and the unhandled fault, if any, that terminated the
process. An unhandled fault yields a non-zero exit status. -/
structure RunResult where
  stdout : String
  fault : Option Fault

/-- Exit status of a run: `0` on success, non-zero when an unhandled
fault terminated the interpreter. -/
def exitCode (r : RunResult) : Nat :=
  match r.fault with
  | none => 0
  | some _ => 1

/-- Shallow embedding of the module body of `main.py`.
`figlet_format` is the external rendering capability (already applied
with default font and default settings), modelled as an opaque function
that may fail; `argv` is `sys.argv`, whose element `0` is the script
name. Line 5 reads `sys.argv[1]` and faults when it is absent; line 6
renders; line 8 prints the serialized one-key object followed by the
newline that `print` appends. A fault terminates the process before
anything is written. -/
def main (figlet_format : String → Except String String)
    (argv : List String) : RunResult :=
  match argv.get? 1 with
  | none => ⟨"", some Fault.missingArgument⟩
  | some text =>
    match figlet_format text with
    | Except.error e => ⟨"", some (Fault.renderingFault e)⟩
    | Except.ok ascii_art => ⟨dumps_ascii_art ascii_art ++ "\n", none⟩

/-- A full invocation context: the argument vector together with the
ambient state a process can observe (environment variables, current
directory). The module body of `main.py` reads `sys.argv` and nothing
else, so only `argv` reaches `main`. -/
structure Invocation where
  argv : List String
  env : List (String × String)
  cwd : String

/-- Running the program in a full invocation context. -/
def mainInv (figlet_format : String → Except String String)
    (inv : Invocation) : RunResult :=
  main figlet_format inv.argv

/-- Modelled from the spec: the reference behaviour
`print(serialize(\x7b"ascii_art": render(argv[1])\x7d))` that section 4.1
describes for an invocation supplying a first argument, written with
the same JSON serializer. -/
def referenceProgram (render : String → String) (firstArg : String) : String :=
  dumps_ascii_art (render firstArg) ++ "\n"

/-- Value of one hexadecimal digit, either case. -/
def hexVal (c : Char) : Option Nat :=
  if '0' ≤ c ∧ c ≤ '9' then some (c.toNat - 48)
  else if 'a' ≤ c ∧ c ≤ 'f' then some (c.toNat - 87)
  else if 'A' ≤ c ∧ c ≤ 'F' then some (c.toNat - 55)
  else none

/-- Value of a four-digit hexadecimal code unit. -/
def hex4 (a b c d : Char) : Option Nat := do
  let x ← hexVal a
  let y ← hexVal b
  let z ← hexVal c
  let w ← hexVal d
  return x * 4096 + y * 256 + z * 16 + w

/-- After a high surrogate `hi`, read the escape `\uXXXX` of a low
surrogate and combine the pair into one code point. -/
def parseLow (hi : Nat) : List Char → Option (Char × List Char)
  | b1 :: u :: a :: b :: c :: d :: r =>
    if b1 = '\\' ∧ u = 'u' then
      match hex4 a b c d with
      | none => none
      | some m =>
        if 56320 ≤ m ∧ m ≤ 57343 then
          some (Char.ofNat ((hi - 55296) * 1024 + (m - 56320) + 65536), r)
        else none
    else none
  | _ => none

/-- Read the four hex digits following `\u`; a high surrogate must be
followed by a low-surrogate escape, and a lone low surrogate is
rejected. -/
def parseU : List Char → Option (Char × List Char)
  | a :: b :: c :: d :: r =>
    match hex4 a b c d with
    | none => none
    | some n =>
      if n < 55296 ∨ 57343 < n then some (Char.ofNat n, r)
      else if n ≤ 56319 then parseLow n r
      else none
  | _ => none

/-- Read one JSON string escape, positioned after the backslash. -/
def parseEscape : List Char → Option (Char × List Char)
  | [] => none
  | c :: r =>
    if c = '"' then some ('"', r)
    else if c = '\\' then some ('\\', r)
    else if c = '/' then some ('/', r)
    else if c = 'b' then some ('\x08', r)
    else if c = 'f' then some ('\x0c', r)
    else if c = 'n' then some ('\n', r)
    else if c = 'r' then some ('\r', r)
    else if c = 't' then some ('\t', r)
    else if c = 'u' then parseU r
    else none

/-- Read the body of a JSON string up to its closing quote, returning
the decoded characters and the input after the quote. Raw control
characters are rejected, as the JSON grammar demands. The fuel bounds
the recursion; one unit is spent per decoded character. -/
def parseStrAux : Nat → List Char → Option (List Char × List Char)
  | 0, _ => none
  | _ + 1, [] => none
  | fuel + 1, c :: rest =>
    if c = '"' then some ([], rest)
    else if c = '\\' then
      match parseEscape rest with
      | none => none
      | some (ch, rest2) =>
        match parseStrAux fuel rest2 with
        | none => none
        | some (s, r) => some (ch :: s, r)
    else if c.toNat < 32 then none
    else
      match parseStrAux fuel rest with
      | none => none
      | some (s, r) => some (c :: s, r)

/-- Parse a JSON document of the shape the program emits: an object
with the single key `ascii_art` whose value is a JSON string. Any
other document is rejected, so a successful parse certifies that the
document is an object with exactly that one key. -/
def parseAsciiArtDoc (doc : String) : Option String :=
  if doc.data.take 15 = docHead then
    match parseStrAux doc.data.length (doc.data.drop 15) with
    | some (s, tail) => if tail = ['\x7d'] then some (String.mk s) else none
    | none => none
  else none

/-- Rebuilding a character from its code point is the identity. -/
theorem charOfNat_toNat (c : Char) : Char.ofNat c.toNat = c := by
  have h : c.toNat.isValidChar := c.valid
  rw [Char.ofNat, dif_pos h]
  unfold Char.ofNatAux
  apply Char.ext
  apply UInt32.ext
  rfl

/-- Characters with equal code points are equal. -/
theorem char_toNat_inj {c d : Char} (h : c.toNat = d.toNat) : c = d := by
  have := congrArg Char.ofNat h
  rwa [charOfNat_toNat, charOfNat_toNat] at this

/-- A character is determined by its code point. -/
theorem char_eq_of_toNat {c : Char} {n : Nat} (h : c.toNat = n)
    (hd : (Char.ofNat n).toNat = n) : c = Char.ofNat n := by
  exact char_toNat_inj (by rw [h, hd])

/-- `hexVal` inverts `hexDigit` on nibbles. -/
theorem hexVal_hexDigit {k : Nat} (h : k < 16) : hexVal (hexDigit k) = some k := by
  interval_cases k <;> decide

/-- A hex digit is printable ASCII. -/
theorem hexDigit_ascii {k : Nat} (h : k < 16) :
    32 ≤ (hexDigit k).toNat ∧ (hexDigit k).toNat ≤ 126 := by
  interval_cases k <;> decide

/-- `hex4` inverts the four-nibble decomposition of a code unit. -/
theorem hex4_digits {n : Nat} (h : n < 65536) :
    hex4 (hexDigit (n / 4096 % 16)) (hexDigit (n / 256 % 16))
      (hexDigit (n / 16 % 16)) (hexDigit (n % 16)) = some n := by
  rw [hex4]
  rw [hexVal_hexDigit (Nat.mod_lt _ (by norm_num)),
      hexVal_hexDigit (Nat.mod_lt _ (by norm_num)),
      hexVal_hexDigit (Nat.mod_lt _ (by norm_num)),
      hexVal_hexDigit (Nat.mod_lt _ (by norm_num))]
  simp only [Option.bind_some, Option.some_bind, bind, Option.bind_eq_bind]
  congr 1
  omega

/-- Reading an escaped quote. -/
theorem parseEscape_quote (r : List Char) : parseEscape ('"' :: r) = some ('"', r) := by
  simp [parseEscape]

/-- Reading an escaped backslash. -/
theorem parseEscape_backslash (r : List Char) :
    parseEscape ('\\' :: r) = some ('\\', r) := by
  simp [parseEscape]

/-- Reading an escaped line feed. -/
theorem parseEscape_n (r : List Char) : parseEscape ('n' :: r) = some ('\n', r) := by
  simp [parseEscape]

/-- Reading an escaped carriage return. -/
theorem parseEscape_r (r : List Char) : parseEscape ('r' :: r) = some ('\r', r) := by
  simp [parseEscape]

/-- Reading an escaped tab. -/
theorem parseEscape_t (r : List Char) : parseEscape ('t' :: r) = some ('\t', r) := by
  simp [parseEscape]

/-- Reading an escaped backspace. -/
theorem parseEscape_b (r : List Char) : parseEscape ('b' :: r) = some ('\x08', r) := by
  simp [parseEscape]

/-- Reading an escaped form feed. -/
theorem parseEscape_f (r : List Char) : parseEscape ('f' :: r) = some ('\x0c', r) := by
  simp [parseEscape]

/-- After a `u`, the reader delegates to the code-unit reader. -/
theorem parseEscape_u (l : List Char) : parseEscape ('u' :: l) = parseU l := by
  simp [parseEscape]

/-- Reading the four digits emitted for a code unit `m` recovers `m`. -/
theorem parseU_digits {m : Nat} (hm : m < 65536) (l : List Char) :
    parseU (hexDigit (m / 4096 % 16) :: hexDigit (m / 256 % 16) ::
      hexDigit (m / 16 % 16) :: hexDigit (m % 16) :: l) =
      if m < 55296 ∨ 57343 < m then some (Char.ofNat m, l)
      else if m ≤ 56319 then parseLow m l else none := by
  simp only [parseU]
  rw [hex4_digits hm]

/-- Reading the low-surrogate escape emitted for a code unit `m`
recovers `m` and combines it with the pending high surrogate. -/
theorem parseLow_digits (hi : Nat) {m : Nat} (hm : m < 65536) (l : List Char) :
    parseLow hi ('\\' :: 'u' :: hexDigit (m / 4096 % 16) :: hexDigit (m / 256 % 16) ::
      hexDigit (m / 16 % 16) :: hexDigit (m % 16) :: l) =
      if 56320 ≤ m ∧ m ≤ 57343 then
        some (Char.ofNat ((hi - 55296) * 1024 + (m - 56320) + 65536), l)
      else none := by
  simp only [parseLow]
  rw [if_pos (by simp), hex4_digits hm]

/-- Reading the `\uXXXX` escape of a valid code point below `0x10000`
recovers exactly that code point. -/
theorem parseEscape_uTail {n : Nat} (hv : n.isValidChar) (hlt : n < 65536)
    (r : List Char) : parseEscape (uTail n ++ r) = some (Char.ofNat n, r) := by
  have hrange : n < 55296 ∨ 57343 < n := by
    rcases hv with h | ⟨h, _⟩
    · exact Or.inl h
    · exact Or.inr h
  simp only [uTail, List.cons_append, List.nil_append]
  rw [parseEscape_u, parseU_digits hlt, if_pos hrange]

/-- Reading a surrogate-pair escape of a code point at or above
`0x10000` recovers exactly that code point. -/
theorem parseEscape_uTail_pair {n : Nat} (h1 : 65536 ≤ n) (h2 : n < 1114112)
    (r : List Char) :
    parseEscape (uTail (55296 + (n - 65536) / 1024) ++
      (uEscape (56320 + (n - 65536) % 1024) ++ r)) = some (Char.ofNat n, r) := by
  have hni : ¬(55296 + (n - 65536) / 1024 < 55296 ∨
      57343 < 55296 + (n - 65536) / 1024) := by omega
  have hle : 55296 + (n - 65536) / 1024 ≤ 56319 := by omega
  have hlo : 56320 ≤ 56320 + (n - 65536) % 1024 ∧
      56320 + (n - 65536) % 1024 ≤ 57343 := by omega
  simp only [uTail, uEscape, List.cons_append, List.nil_append]
  rw [parseEscape_u, parseU_digits (by omega), if_neg hni, if_pos hle,
      parseLow_digits _ (by omega), if_pos hlo]
  have heq : 55296 + (n - 65536) / 1024 - 55296 = (n - 65536) / 1024 := by omega
  have heq2 : 56320 + (n - 65536) % 1024 - 56320 = (n - 65536) % 1024 := by omega
  rw [heq, heq2]
  have heq3 : (n - 65536) / 1024 * 1024 + (n - 65536) % 1024 + 65536 = n := by omega
  rw [heq3]

/-- One reader step: the closing quote ends the string body. -/
theorem parseStrAux_quote (f : Nat) (tail : List Char) :
    parseStrAux (f + 1) ('"' :: tail) = some ([], tail) := by
  simp [parseStrAux]

/-- One reader step through an escape sequence. -/
theorem parseStrAux_esc (f : Nat) {lr R tailr s : List Char} {ch : Char}
    (hesc : parseEscape lr = some (ch, R))
    (hrec : parseStrAux f R = some (s, tailr)) :
    parseStrAux (f + 1) ('\\' :: lr) = some (ch :: s, tailr) := by
  simp [parseStrAux, hesc, hrec]

/-- One reader step over a literal printable character. -/
theorem parseStrAux_lit (f : Nat) {c : Char} (h1 : c ≠ '"') (h2 : c ≠ '\\')
    (h3 : 32 ≤ c.toNat) {R tailr s : List Char}
    (hrec : parseStrAux f R = some (s, tailr)) :
    parseStrAux (f + 1) (c :: R) = some (c :: s, tailr) := by
  have h4 : ¬(c.toNat < 32) := by omega
  simp [parseStrAux, h1, h2, h4, hrec]

/-- Round trip of the string body: reading back the escaped form of any
character list recovers it exactly and stops at the closing quote. -/
theorem parseStrAux_escapeList (s : List Char) : ∀ (fuel : Nat) (tail : List Char),
    s.length < fuel →
    parseStrAux fuel (escapeList s ++ '"' :: tail) = some (s, tail) := by
  induction s with
  | nil =>
    intro fuel tail h
    obtain ⟨f, rfl⟩ : ∃ f, fuel = f + 1 := ⟨fuel - 1, by omega⟩
    simpa [escapeList] using parseStrAux_quote f tail
  | cons c cs ih =>
    intro fuel tail h
    obtain ⟨f, rfl⟩ : ∃ f, fuel = f + 1 := ⟨fuel - 1, by omega⟩
    have hcs : cs.length < f := by
      simp only [List.length_cons] at h
      omega
    have hrec := ih f tail hcs
    simp only [escapeList, List.append_assoc]
    simp only [escapeChar]
    by_cases h1 : c = '"'
    · subst h1
      rw [if_pos rfl]
      simp only [List.cons_append, List.nil_append]
      exact parseStrAux_esc f (parseEscape_quote _) hrec
    rw [if_neg h1]
    by_cases h2 : c = '\\'
    · subst h2
      rw [if_pos rfl]
      simp only [List.cons_append, List.nil_append]
      exact parseStrAux_esc f (parseEscape_backslash _) hrec
    rw [if_neg h2]
    by_cases h3 : c = '\n'
    · subst h3
      rw [if_pos rfl]
      simp only [List.cons_append, List.nil_append]
      exact parseStrAux_esc f (parseEscape_n _) hrec
    rw [if_neg h3]
    by_cases h4 : c = '\r'
    · subst h4
      rw [if_pos rfl]
      simp only [List.cons_append, List.nil_append]
      exact parseStrAux_esc f (parseEscape_r _) hrec
    rw [if_neg h4]
    by_cases h5 : c = '\t'
    · subst h5
      rw [if_pos rfl]
      simp only [List.cons_append, List.nil_append]
      exact parseStrAux_esc f (parseEscape_t _) hrec
    rw [if_neg h5]
    by_cases h6 : c.toNat = 8
    · obtain rfl : c = '\x08' := char_toNat_inj (by rw [h6]; rfl)
      rw [if_pos (by decide)]
      simp only [List.cons_append, List.nil_append]
      exact parseStrAux_esc f (parseEscape_b _) hrec
    rw [if_neg h6]
    by_cases h7 : c.toNat = 12
    · obtain rfl : c = '\x0c' := char_toNat_inj (by rw [h7]; rfl)
      rw [if_pos (by decide)]
      simp only [List.cons_append, List.nil_append]
      exact parseStrAux_esc f (parseEscape_f _) hrec
    rw [if_neg h7]
    by_cases h8 : 32 ≤ c.toNat ∧ c.toNat ≤ 126
    · rw [if_pos h8]
      simp only [List.cons_append, List.nil_append]
      exact parseStrAux_lit f h1 h2 h8.1 hrec
    rw [if_neg h8]
    by_cases h9 : c.toNat < 65536
    · rw [if_pos h9]
      rw [uEscape, List.cons_append]
      have hesc := parseEscape_uTail (n := c.toNat) c.valid h9
        (escapeList cs ++ '"' :: tail)
      rw [charOfNat_toNat] at hesc
      exact parseStrAux_esc f hesc hrec
    rw [if_neg h9]
    have hBig : c.toNat < 1114112 := by
      have hv : c.toNat.isValidChar := c.valid
      rcases hv with hlt | ⟨_, hlt⟩
      · omega
      · exact hlt
    rw [uEscape]
    simp only [List.cons_append, List.append_assoc]
    have hesc := parseEscape_uTail_pair (n := c.toNat) (by omega) hBig
      (escapeList cs ++ '"' :: tail)
    rw [charOfNat_toNat] at hesc
    exact parseStrAux_esc f hesc hrec

/-- Escaping never shortens a string body. -/
theorem length_le_escapeList (s : List Char) : s.length ≤ (escapeList s).length := by
  induction s with
  | nil => simp [escapeList]
  | cons c cs ih =>
    simp only [escapeList, List.length_append, List.length_cons]
    have h1 : 1 ≤ (escapeChar c).length := by
      rw [escapeChar]
      split_ifs <;> simp [uEscape, uTail]
    omega

/-- Round trip of the whole document: reading back the serialized
one-key object recovers the value string exactly. -/
theorem parseAsciiArtDoc_dumps (art : String) :
    parseAsciiArtDoc (dumps_ascii_art art) = some art := by
  have hdata : (dumps_ascii_art art).data =
      docHead ++ (escapeList art.data ++ ['"', '\x7d']) := rfl
  have htake : (docHead ++ (escapeList art.data ++ ['"', '\x7d'])).take 15 =
      docHead := by
    rw [show (15 : Nat) = docHead.length by rfl, List.take_left]
  have hdrop : (docHead ++ (escapeList art.data ++ ['"', '\x7d'])).drop 15 =
      escapeList art.data ++ ['"', '\x7d'] := by
    rw [show (15 : Nat) = docHead.length by rfl, List.drop_left]
  have hlen : art.data.length <
      (docHead ++ (escapeList art.data ++ ['"', '\x7d'])).length := by
    have h1 := length_le_escapeList art.data
    have h2 : docHead.length = 15 := rfl
    have h3 : (['"', '\x7d'] : List Char).length = 2 := rfl
    simp only [List.length_append, h2, h3]
    omega
  have hstr := parseStrAux_escapeList art.data
    (docHead ++ (escapeList art.data ++ ['"', '\x7d'])).length ['\x7d'] hlen
  rw [parseAsciiArtDoc, hdata, htake, if_pos rfl, hdrop]
  rw [show escapeList art.data ++ ['"', '\x7d'] =
      escapeList art.data ++ '"' :: ['\x7d'] from rfl, hstr]
  rfl

/-- Every character of the serialized document is printable ASCII. -/
theorem dumps_ascii_art_ascii {art : String} {d : Char}
    (hd : d ∈ (dumps_ascii_art art).data) : 32 ≤ d.toNat ∧ d.toNat ≤ 126 := by
  have huesc : ∀ (n : Nat) (e : Char), e ∈ uEscape n →
      32 ≤ e.toNat ∧ e.toNat ≤ 126 := by
    intro n e he
    simp only [uEscape, uTail, List.mem_cons, List.not_mem_nil, or_false] at he
    rcases he with rfl | rfl | rfl | rfl | rfl | rfl
    · decide
    · decide
    · exact hexDigit_ascii (Nat.mod_lt _ (by norm_num))
    · exact hexDigit_ascii (Nat.mod_lt _ (by norm_num))
    · exact hexDigit_ascii (Nat.mod_lt _ (by norm_num))
    · exact hexDigit_ascii (Nat.mod_lt _ (by norm_num))
  have hchar : ∀ (c e : Char), e ∈ escapeChar c →
      32 ≤ e.toNat ∧ e.toNat ≤ 126 := by
    intro c e he
    rw [escapeChar] at he
    split_ifs at he with h1 h2 h3 h4 h5 h6 h7 h8 h9
    · simp only [List.mem_cons, List.not_mem_nil, or_false] at he
      rcases he with rfl | rfl <;> decide
    · simp only [List.mem_cons, List.not_mem_nil, or_false] at he
      rcases he with rfl | rfl <;> decide
    · simp only [List.mem_cons, List.not_mem_nil, or_false] at he
      rcases he with rfl | rfl <;> decide
    · simp only [List.mem_cons, List.not_mem_nil, or_false] at he
      rcases he with rfl | rfl <;> decide
    · simp only [List.mem_cons, List.not_mem_nil, or_false] at he
      rcases he with rfl | rfl <;> decide
    · simp only [List.mem_cons, List.not_mem_nil, or_false] at he
      rcases he with rfl | rfl <;> decide
    · simp only [List.mem_cons, List.not_mem_nil, or_false] at he
      rcases he with rfl | rfl <;> decide
    · simp only [List.mem_cons, List.not_mem_nil, or_false] at he
      rcases he with rfl
      exact h8
    · exact huesc _ _ he
    · rcases List.mem_append.1 he with h | h
      · exact huesc _ _ h
      · exact huesc _ _ h
  have hlist : ∀ (s : List Char) (e : Char), e ∈ escapeList s →
      32 ≤ e.toNat ∧ e.toNat ≤ 126 := by
    intro s
    induction s with
    | nil => intro e he; simp [escapeList] at he
    | cons c cs ih =>
      intro e he
      rw [escapeList] at he
      rcases List.mem_append.1 he with h | h
      · exact hchar _ _ h
      · exact ih _ h
  have hdata : (dumps_ascii_art art).data =
      docHead ++ (escapeList art.data ++ ['"', '\x7d']) := rfl
  rw [hdata] at hd
  rcases List.mem_append.1 hd with h | h
  · fin_cases h <;> decide
  · rcases List.mem_append.1 h with h2 | h2
    · exact hlist _ _ h2
    · simp only [List.mem_cons, List.not_mem_nil, or_false] at h2
      rcases h2 with rfl | rfl <;> decide

/-- The serialized document contains no newline character: the value's
newlines are escaped, so the document is a single line. -/
theorem dumps_ascii_art_no_newline {art : String} {d : Char}
    (hd : d ∈ (dumps_ascii_art art).data) : d ≠ '\n' := by
  intro h
  subst h
  exact absurd (dumps_ascii_art_ascii hd) (by decide)

/-- C1: for every invocation with exactly one command-line argument `s`,
the program writes to standard output the JSON serialization of the
object whose single field `ascii_art` maps to exactly the string the
external rendering capability returned for `s`, and exits cleanly. -/
theorem c1_single_argument_output
    (figlet_format : String → Except String String) (prog s art : String)
    (h : figlet_format s = Except.ok art) :
    main figlet_format [prog, s] = ⟨dumps_ascii_art art ++ "\n", none⟩ := by
  simp [main, h]

/-- Witness for C1 at a concrete renderer and input. -/
theorem c1_witness :
    main (fun s => Except.ok (s ++ "!\n")) ["main.py", "HI"] =
      ⟨dumps_ascii_art "HI!\n" ++ "\n", none⟩ :=
  c1_single_argument_output (fun s => Except.ok (s ++ "!\n")) "main.py" "HI"
    "HI!\n" rfl

/-- C2: with zero command-line arguments the run ends in the
MissingArgument-class fault raised by the argument access, the exit
status is non-zero, and nothing is written to standard output. -/
theorem c2_zero_arguments_fault
    (figlet_format : String → Except String String) (prog : String) :
    main figlet_format [prog] = ⟨"", some Fault.missingArgument⟩ ∧
      exitCode (main figlet_format [prog]) ≠ 0 := by
  refine ⟨rfl, ?_⟩
  have h1 : exitCode (main figlet_format [prog]) = 1 := rfl
  rw [h1]
  norm_num

/-- C3: for a non-empty input string that the renderer maps to a
non-empty art string, the standard output is the serialized document
followed by the newline added by `print`, and that document parses as
an object with the single key `ascii_art` whose value is the non-empty
art string. -/
theorem c3_nonempty_input_valid_json
    (figlet_format : String → Except String String) (prog s art : String)
    (hs : s ≠ "") (h : figlet_format s = Except.ok art) (hart : art ≠ "") :
    (main figlet_format [prog, s]).stdout = dumps_ascii_art art ++ "\n" ∧
      parseAsciiArtDoc (dumps_ascii_art art) = some art ∧ art ≠ "" := by
  refine ⟨?_, parseAsciiArtDoc_dumps art, hart⟩
  simp [main, h]

/-- Witness for C3 at a concrete renderer and input. -/
theorem c3_witness :
    (main (fun _ => Except.ok "A ") ["main.py", "HI"]).stdout =
        dumps_ascii_art "A " ++ "\n" ∧
      parseAsciiArtDoc (dumps_ascii_art "A ") = some "A " ∧
      ("A " : String) ≠ "" :=
  c3_nonempty_input_valid_json (fun _ => Except.ok "A ") "main.py" "HI" "A "
    (by decide) rfl (by decide)

/-- C4: when the rendering capability fails, the run ends in a
RenderingFault, the exit status is non-zero and standard output stays
completely empty: no partial document is emitted. -/
theorem c4_rendering_fault_all_or_nothing
    (figlet_format : String → Except String String) (prog s e : String)
    (h : figlet_format s = Except.error e) :
    main figlet_format [prog, s] = ⟨"", some (Fault.renderingFault e)⟩ ∧
      exitCode (main figlet_format [prog, s]) ≠ 0 ∧
      (main figlet_format [prog, s]).stdout = "" := by
  have hm : main figlet_format [prog, s] = ⟨"", some (Fault.renderingFault e)⟩ := by
    simp [main, h]
  have h1 : exitCode ⟨"", some (Fault.renderingFault e)⟩ = 1 := rfl
  refine ⟨hm, ?_, by rw [hm]⟩
  rw [hm, h1]
  norm_num

/-- Witness for C4 at a concrete failing renderer. -/
theorem c4_witness :
    main (fun _ => Except.error "boom") ["main.py", "HI"] =
        ⟨"", some (Fault.renderingFault "boom")⟩ ∧
      exitCode (main (fun _ => Except.error "boom") ["main.py", "HI"]) ≠ 0 ∧
      (main (fun _ => Except.error "boom") ["main.py", "HI"]).stdout = "" :=
  c4_rendering_fault_all_or_nothing (fun _ => Except.error "boom") "main.py"
    "HI" "boom" rfl

/-- C5: on every successful invocation the emitted document parses, and
re-serializing the parsed value yields the identical document. -/
theorem c5_serialize_parse_roundtrip
    (figlet_format : String → Except String String) (prog s art : String)
    (h : figlet_format s = Except.ok art) :
    ∃ v : String, parseAsciiArtDoc (dumps_ascii_art art) = some v ∧
      dumps_ascii_art v = dumps_ascii_art art ∧
      (main figlet_format [prog, s]).stdout = dumps_ascii_art art ++ "\n" :=
  ⟨art, parseAsciiArtDoc_dumps art, rfl, by simp [main, h]⟩

/-- Witness for C5 at a concrete renderer and input. -/
theorem c5_witness :
    ∃ v : String, parseAsciiArtDoc (dumps_ascii_art "X\n") = some v ∧
      dumps_ascii_art v = dumps_ascii_art "X\n" ∧
      (main (fun _ => Except.ok "X\n") ["main.py", "HI"]).stdout =
        dumps_ascii_art "X\n" ++ "\n" :=
  c5_serialize_parse_roundtrip (fun _ => Except.ok "X\n") "main.py" "HI"
    "X\n" rfl

/-- C6: on every successful invocation the document written before the
final newline is a single line of ASCII (hence valid UTF-8): every
character is printable ASCII and in particular no embedded newline
survives unescaped. -/
theorem c6_output_single_line
    (figlet_format : String → Except String String) (prog s art : String)
    (h : figlet_format s = Except.ok art) :
    (main figlet_format [prog, s]).stdout = dumps_ascii_art art ++ "\n" ∧
      (∀ d ∈ (dumps_ascii_art art).data, d ≠ '\n') ∧
      (∀ d ∈ (dumps_ascii_art art).data, 32 ≤ d.toNat ∧ d.toNat ≤ 126) := by
  refine ⟨by simp [main, h], ?_, ?_⟩
  · intro d hd
    exact dumps_ascii_art_no_newline hd
  · intro d hd
    exact dumps_ascii_art_ascii hd

/-- Witness for C6 at a concrete renderer whose output embeds a
newline. -/
theorem c6_witness :
    (main (fun _ => Except.ok "A\nB") ["main.py", "HI"]).stdout =
        dumps_ascii_art "A\nB" ++ "\n" ∧
      (∀ d ∈ (dumps_ascii_art "A\nB").data, d ≠ '\n') ∧
      (∀ d ∈ (dumps_ascii_art "A\nB").data, 32 ≤ d.toNat ∧ d.toNat ≤ 126) :=
  c6_output_single_line (fun _ => Except.ok "A\nB") "main.py" "HI" "A\nB" rfl

/-- C7: whenever a first argument is present and the renderer returns a
value, the program is extensionally the spec's reference composition:
read `argv[1]`, render once, wrap in the one-field object, serialize
and print. -/
theorem c7_refines_reference (render : String → String) (argv : List String)
    (s : String) (h : argv.get? 1 = some s) :
    main (fun t => Except.ok (render t)) argv =
      ⟨referenceProgram render s, none⟩ := by
  have h2 : argv[1]? = some s := by simpa using h
  simp [main, h2, referenceProgram]

/-- Witness for C7 at a concrete renderer and argument vector. -/
theorem c7_witness :
    main (fun t => Except.ok (String.append t t)) ["main.py", "HI"] =
      ⟨referenceProgram (fun t => String.append t t) "HI", none⟩ :=
  c7_refines_reference (fun t => String.append t t) ["main.py", "HI"] "HI" rfl

/-- C8: on the empty-string input the program does not fail: it emits
the serialized document for whatever the renderer returns on `""`, and
that document is valid JSON parsing back to that value. -/
theorem c8_empty_input_valid_json
    (figlet_format : String → Except String String) (prog art : String)
    (h : figlet_format "" = Except.ok art) :
    main figlet_format [prog, ""] = ⟨dumps_ascii_art art ++ "\n", none⟩ ∧
      parseAsciiArtDoc (dumps_ascii_art art) = some art :=
  ⟨by simp [main, h], parseAsciiArtDoc_dumps art⟩

/-- Witness for C8 at a renderer returning a whitespace block on the
empty input. -/
theorem c8_witness :
    main (fun _ => Except.ok "  \n") ["main.py", ""] =
        ⟨dumps_ascii_art "  \n" ++ "\n", none⟩ ∧
      parseAsciiArtDoc (dumps_ascii_art "  \n") = some "  \n" :=
  c8_empty_input_valid_json (fun _ => Except.ok "  \n") "main.py" "  \n" rfl

/-- C9: command-line arguments beyond the first are silently ignored:
two invocations agreeing on the first argument produce identical
results whatever extra arguments follow. -/
theorem c9_extra_arguments_ignored
    (figlet_format : String → Except String String) (prog s : String)
    (extra1 extra2 : List String) :
    main figlet_format (prog :: s :: extra1) =
      main figlet_format (prog :: s :: extra2) := by
  simp [main]

/-- C10: the program is deterministic and reads no ambient state: two
invocation contexts that agree on the first argument — whatever their
environment variables, working directories or remaining arguments —
produce byte-identical results under the same renderer. -/
theorem c10_deterministic_no_ambient_state
    (figlet_format : String → Except String String) (inv1 inv2 : Invocation)
    (h : inv1.argv.get? 1 = inv2.argv.get? 1) :
    mainInv figlet_format inv1 = mainInv figlet_format inv2 := by
  simp only [mainInv, main, h]

/-- Witness for C10: same argv, different environment and working
directory. -/
theorem c10_witness :
    mainInv (fun s => Except.ok s)
        ⟨["main.py", "HI"], [("HOME", "/root")], "/tmp"⟩ =
      mainInv (fun s => Except.ok s) ⟨["main.py", "HI"], [], "/srv"⟩ :=
  c10_deterministic_no_ambient_state (fun s => Except.ok s)
    ⟨["main.py", "HI"], [("HOME", "/root")], "/tmp"⟩
    ⟨["main.py", "HI"], [], "/srv"⟩ rfl

-- sanity checks (concrete evaluations)
example : dumps_ascii_art "HI" = "\x7b\"ascii_art\": \"HI\"\x7d" := by decide
example : parseAsciiArtDoc (dumps_ascii_art "HI\n") = some "HI\n" := by decide
example : parseAsciiArtDoc "\x7b\"ascii_art\": \"a\\u00e9\"\x7d" = some "aé" := by decide
example : main (fun s => Except.ok (s ++ "\n")) ["main.py"] =
    ⟨"", some Fault.missingArgument⟩ := rfl
example : (main (fun s => Except.ok (s ++ "\n")) ["main.py", "HI"]).stdout =
    "\x7b\"ascii_art\": \"HI\\n\"\x7d\n" := by decide

end AsciiArt
